import Mathlib

/-!
Shallow embedding of the `RewardHistory` reward-rate accumulator from
`src/utils/format.ts` (class `RewardHistory`, lines 57-314), together with
proofs of the behavioural properties of its `update` / `getStats` /
`reset` / `setInitialAmount` operations.

Modelling conventions, stated once:

* JavaScript timestamps (`Date.now()`, milliseconds) are `Nat` values passed
  explicitly as a `now` argument to every operation that reads the clock.
* Token amounts are kept in wei.  The source stores them as decimal strings
  and computes with ethers.js `BigNumber` (arbitrary-precision integers);
  every value that reaches the arithmetic is non-negative, so wei amounts
  are modelled as `Nat`.  `BigNumber.div` truncates, which on non-negative
  operands is `Nat` division.
* `cutoff = Date.now() - windowMs` can be negative in JavaScript; every
  timestamp compared against it is `≥ 0`, so truncated `Nat` subtraction
  (`now - windowMs = 0` when `now < windowMs`) yields the same comparison
  results.
* The display-stage conversion `parseFloat(utils.formatEther(x))` divides a
  wei integer by 10^18; it is modelled as the exact rational `x / 10^18`
  (the source performs all accumulation in `BigNumber` and converts only at
  this final boundary).
* The `console.log` calls and the `try/catch` wrappers (which can only fire
  on malformed string inputs, excluded here by typing amounts as `Nat`) are
  omitted.
-/

namespace MystBalance

/-- Source `interface RewardPoint` (format.ts lines 26-29): an entry of the
trailing-window history, holding a `timestamp` (ms) and an incremental
reward `amount` in wei. -/
structure RewardPoint where
  timestamp : Nat
  amount : Nat
deriving Repr, DecidableEq

/-- Source `interface RateStats` (lines 31-35): the trailing-window rates. -/
structure RateStats where
  perMinute : ℚ
  perHour : ℚ
  perDay : ℚ
deriving Repr, DecidableEq

/-- Source `interface RewardStats` (lines 44-55), without the `formatted` block of
display strings: the numeric fields returned by `getStats`. -/
structure RewardStats where
  sessionTotal : ℚ
  sessionDurationMinutes : ℚ
  sessionPerMinute : ℚ
  currentRate : RateStats
deriving Repr, DecidableEq

/-- The mutable fields of `class RewardHistory` (lines 57-63).
`lastAmount : string = '0'` becomes a `Nat` (default 0) and
`initialAmount : string | null` becomes an `Option Nat`; the JavaScript
truthiness test `this.initialAmount && this.lastAmount` on these fields is
exactly `initialAmount ≠ none`, because both strings are always non-empty
decimal numerals ("0" is truthy). -/
structure RewardHistory where
  history : List RewardPoint
  lastAmount : Nat
  initialAmount : Option Nat
  startTime : Nat
  initialized : Bool
deriving Repr, DecidableEq

/-- Source `windowMs = 5 * 60 * 1000` (line 62): the 5-minute trailing window. -/
def windowMs : Nat := 5 * 60 * 1000

/-- Source `minutesInWindow = 5` (line 220): the fixed divisor of the window rate. -/
def minutesInWindow : Nat := 5

/-- Source `utils.parseEther('0.0001')` (line 93): the warm-up sample amount,
0.0001 ether = 10^14 wei. -/
def sampleWei : Nat := 10 ^ 14

/-- The wei-per-ether scale used by `utils.formatEther` / `parseEther`. -/
def weiPerEther : Nat := 10 ^ 18

/-- Conversion `parseFloat(utils.formatEther(wei))`: final display conversion of a wei
amount, modelled as an exact rational. -/
def toDisplay (wei : Nat) : ℚ := (wei : ℚ) / (weiPerEther : ℚ)

/-- The state of a freshly constructed `RewardHistory` (field initialisers,
lines 58-63), with `constructedAt` standing for the `Date.now()` of the
`startTime` initialiser. -/
def initState (constructedAt : Nat) : RewardHistory :=
  { history := []
    lastAmount := 0
    initialAmount := none
    startTime := constructedAt
    initialized := false }

/-- The window-retention test of `cleanup` (line 285) and of the
`recentPoints` filter in `getStats` (line 200): keep a point whose
`timestamp` is at least `now - windowMs`. -/
def inWindowB (now : Nat) (p : RewardPoint) : Bool :=
  decide (now - windowMs ≤ p.timestamp)

/-- Source `cleanup()` applied to a history list (lines 283-286):
`history.filter(point => point.timestamp >= cutoff)`. -/
def cleanupList (now : Nat) (l : List RewardPoint) : List RewardPoint :=
  l.filter (inWindowB now)

/-- Source `private cleanup()` (lines 283-286) as a state transformer. -/
def cleanup (now : Nat) (s : RewardHistory) : RewardHistory :=
  { s with history := cleanupList now s.history }

/-- The five warm-up points pushed by `initialize` (lines 90-95): the loop
runs `i = 4, 3, 2, 1, 0`, pushing `{timestamp: now - i*60*1000, amount:
parseEther('0.0001')}`; with `j = 4 - i` this is `j = 0, ..., 4`. -/
def syntheticSamples (now : Nat) : List RewardPoint :=
  (List.range 5).map (fun j => ⟨now - (4 - j) * 60000, sampleWei⟩)

/-- Source `private initialize()` (lines 85-98): if not yet initialized, push the
five warm-up samples and set `initialized = true`; note it does NOT touch
`initialAmount`, `lastAmount` or `startTime`. -/
def seedHistory (now : Nat) (s : RewardHistory) : RewardHistory :=
  if s.initialized then s
  else { s with history := s.history ++ syntheticSamples now
                initialized := true }

/-- The in-place mutation `this.history[this.history.length - 1].timestamp
= currentTime` (line 166): replace the timestamp of the last list entry. -/
def setLastTimestamp (now : Nat) : List RewardPoint → List RewardPoint
  | [] => []
  | [p] => [{ p with timestamp := now }]
  | p :: q :: ps => p :: setLastTimestamp now (q :: ps)

/-- Source `public update(currentAmount)` (lines 103-180), with `currentWei` the
result of `toWeiString`.  Branches, in source order:
* lines 111-126: first call (`!this.initialized`) — set
  `initialAmount = lastAmount = currentWei`, `startTime = now`, push one
  zero-delta point, return (no cleanup);
* lines 133-147: `currentWei.lt(lastWei)` — rollback: wipe the history,
  re-baseline, `startTime = now`, push one zero-delta point, return
  (no cleanup);
* lines 150-175: otherwise `difference = currentWei - lastWei`;
  if positive, push `{timestamp: now, amount: difference}` and set
  `lastAmount = currentWei`; if zero, retime the last point (or push the
  zero-delta point when the history is empty; `lastAmount` is not
  reassigned, but already equals `currentWei`); then `cleanup()`. -/
def update (now currentWei : Nat) (s : RewardHistory) : RewardHistory :=
  if s.initialized = false then
    { s with initialAmount := some currentWei
             lastAmount := currentWei
             startTime := now
             initialized := true
             history := s.history ++ [⟨now, 0⟩] }
  else if currentWei < s.lastAmount then
    { s with history := [⟨now, 0⟩]
             lastAmount := currentWei
             initialAmount := some currentWei
             startTime := now }
  else if 0 < currentWei - s.lastAmount then
    -- difference = currentWei - lastWei, positive
    cleanup now
      { s with history := s.history ++ [⟨now, currentWei - s.lastAmount⟩]
               lastAmount := currentWei }
  else if s.history = [] then
    -- zero difference, empty history: push the zero-delta point anyway
    cleanup now { s with history := s.history ++ [⟨now, currentWei - s.lastAmount⟩] }
  else
    -- zero difference: retime the most recent point
    cleanup now { s with history := setLastTimestamp now s.history }

/-- The session total in wei (lines 211-215): `lastAmount - initialAmount`
clamped at zero when `initialAmount` is set, else `BigNumber.from(0)`.
`BigNumber` subtraction followed by the `gt(0) ? _ : 0` clamp equals
truncated `Nat` subtraction. -/
def sessionTotalWei (s : RewardHistory) : Nat :=
  match s.initialAmount with
  | none => 0
  | some a => s.lastAmount - a

/-- Source `totalRewards` (lines 200-206): the sum of the amounts of the history
points whose timestamp lies within the trailing window ending at `now`. -/
def windowTotalWei (now : Nat) (s : RewardHistory) : Nat :=
  ((s.history.filter (inWindowB now)).map RewardPoint.amount).sum

/-- Source `public getStats()` (lines 185-278): prune (`cleanup()`), seed warm-up
data (`initialize()`), then compute the statistics from the resulting
state `s1`; returned alongside `s1` because both calls mutate
`this.history`.  `sessionDurationMinutes` uses JavaScript float division
(line 192), modelled in `ℚ`; every wei-valued rate uses `BigNumber`
(truncating) division; `sessionPerMinute` is 0 unless the session duration
is positive (lines 224-228). -/
def getStats (now : Nat) (s : RewardHistory) : RewardHistory × RewardStats :=
  let s1 := seedHistory now (cleanup now s)
  let sessionDurationMs := now - s1.startTime
  let totalRewards := windowTotalWei now s1
  let sessionTotal := sessionTotalWei s1
  let perMinute := totalRewards / minutesInWindow
  let sessionPerMinute :=
    if 0 < sessionDurationMs then sessionTotal * 60000 / sessionDurationMs
    else 0
  let perHour := perMinute * 60
  let perDay := perHour * 24
  (s1,
   { sessionTotal := toDisplay sessionTotal
     sessionDurationMinutes := max 1 ((sessionDurationMs : ℚ) / 60000)
     sessionPerMinute := toDisplay sessionPerMinute
     currentRate :=
       { perMinute := toDisplay perMinute
         perHour := toDisplay perHour
         perDay := toDisplay perDay } })

/-- Source `public reset()` (lines 291-299): back to the uninitialized condition,
with `startTime = Date.now()`; fieldwise identical to a fresh instance. -/
def reset (now : Nat) (_s : RewardHistory) : RewardHistory :=
  { history := []
    lastAmount := 0
    initialAmount := none
    startTime := now
    initialized := false }

/-- Source `public setInitialAmount(amount)` (lines 305-313): set baseline, last
amount and `startTime` directly, mark initialized, leave the history
untouched. -/
def setInitialAmount (now amountWei : Nat) (s : RewardHistory) : RewardHistory :=
  { s with initialAmount := some amountWei
           lastAmount := amountWei
           startTime := now
           initialized := true }

/-- A polling session: fold a list of `(time, cumulative wei)` observations
through `update`. -/
def applyUpdates (obs : List (Nat × Nat)) (s : RewardHistory) : RewardHistory :=
  obs.foldl (fun st p => update p.1 p.2 st) s

/-- The history is sorted by `observedAt` (`timestamp`) ascending. -/
def sortedByTime (l : List RewardPoint) : Prop :=
  l.Pairwise (fun p q => p.timestamp ≤ q.timestamp)

/-- Every point of the list was observed no later than `t`. -/
def timesLE (t : Nat) (l : List RewardPoint) : Prop :=
  ∀ p ∈ l, p.timestamp ≤ t

/-- Well-formedness of an accumulator state at clock reading `t`: the
history is sorted, observed in the past, and empty while uninitialized
(every writer of `history` also sets `initialized := true`, and `reset` /
construction clear both). -/
def WF (t : Nat) (s : RewardHistory) : Prop :=
  sortedByTime s.history ∧ timesLE t s.history ∧
    (s.initialized = false → s.history = [])

instance (l : List RewardPoint) : Decidable (sortedByTime l) :=
  inferInstanceAs (Decidable (l.Pairwise _))

instance (t : Nat) (l : List RewardPoint) : Decidable (timesLE t l) :=
  inferInstanceAs (Decidable (∀ p ∈ l, p.timestamp ≤ t))

instance (t : Nat) (s : RewardHistory) : Decidable (WF t s) :=
  inferInstanceAs (Decidable (_ ∧ _ ∧ _))

/-! ### Field bookkeeping for the state transformers -/

@[simp] lemma cleanup_history (now : Nat) (s : RewardHistory) :
    (cleanup now s).history = cleanupList now s.history := rfl

@[simp] lemma cleanup_lastAmount (now : Nat) (s : RewardHistory) :
    (cleanup now s).lastAmount = s.lastAmount := rfl

@[simp] lemma cleanup_initialAmount (now : Nat) (s : RewardHistory) :
    (cleanup now s).initialAmount = s.initialAmount := rfl

@[simp] lemma cleanup_startTime (now : Nat) (s : RewardHistory) :
    (cleanup now s).startTime = s.startTime := rfl

@[simp] lemma cleanup_initialized (now : Nat) (s : RewardHistory) :
    (cleanup now s).initialized = s.initialized := rfl

@[simp] lemma seedHistory_lastAmount (now : Nat) (s : RewardHistory) :
    (seedHistory now s).lastAmount = s.lastAmount := by
  unfold seedHistory; split <;> rfl

@[simp] lemma seedHistory_initialAmount (now : Nat) (s : RewardHistory) :
    (seedHistory now s).initialAmount = s.initialAmount := by
  unfold seedHistory; split <;> rfl

@[simp] lemma seedHistory_startTime (now : Nat) (s : RewardHistory) :
    (seedHistory now s).startTime = s.startTime := by
  unfold seedHistory; split <;> rfl

@[simp] lemma seedHistory_initialized (now : Nat) (s : RewardHistory) :
    (seedHistory now s).initialized = true := by
  unfold seedHistory; split <;> simp_all

lemma seedHistory_of_initialized (now : Nat) (s : RewardHistory)
    (h : s.initialized = true) : seedHistory now s = s := by
  unfold seedHistory; simp [h]

lemma seedHistory_history_of_uninit (now : Nat) (s : RewardHistory)
    (h : s.initialized = false) :
    (seedHistory now s).history = s.history ++ syntheticSamples now := by
  unfold seedHistory; simp [h]

/-- Every branch of `update` ends with `lastAmount = currentWei`: the first
two branches assign it, the positive-delta branch assigns it, and the
zero-delta branches leave it unchanged when it already equals the input. -/
lemma update_lastAmount (now c : Nat) (s : RewardHistory) :
    (update now c s).lastAmount = c := by
  unfold update
  split_ifs with h1 h2 h3 h4 <;> simp <;> omega

@[simp] lemma update_initialized (now c : Nat) (s : RewardHistory) :
    (update now c s).initialized = true := by
  unfold update
  split_ifs with h1 h2 h3 h4 <;> simp_all

/-- On an initialized accumulator, a non-decreasing observation never
touches the baseline: only the first-call and rollback branches write
`initialAmount`. -/
lemma update_initialAmount_of_mono (now c : Nat) (s : RewardHistory)
    (hinit : s.initialized = true) (hle : s.lastAmount ≤ c) :
    (update now c s).initialAmount = s.initialAmount := by
  unfold update
  split_ifs with h1 h2 h3 h4
  · simp [hinit] at h1
  · omega
  · rfl
  · rfl
  · rfl

/-- On an initialized accumulator, a non-decreasing observation never
restarts the session clock. -/
lemma update_startTime_of_mono (now c : Nat) (s : RewardHistory)
    (hinit : s.initialized = true) (hle : s.lastAmount ≤ c) :
    (update now c s).startTime = s.startTime := by
  unfold update
  split_ifs with h1 h2 h3 h4
  · simp [hinit] at h1
  · omega
  · rfl
  · rfl
  · rfl

/-! ### Projections of `getStats` -/

lemma getStats_fst (now : Nat) (s : RewardHistory) :
    (getStats now s).1 = seedHistory now (cleanup now s) := rfl

lemma sessionTotalWei_seedHistory (now : Nat) (s : RewardHistory) :
    sessionTotalWei (seedHistory now s) = sessionTotalWei s := by
  unfold sessionTotalWei
  rw [seedHistory_initialAmount, seedHistory_lastAmount]

lemma sessionTotalWei_cleanup (now : Nat) (s : RewardHistory) :
    sessionTotalWei (cleanup now s) = sessionTotalWei s := rfl

/-- The session total reported by `getStats` is the display conversion of
`sessionTotalWei` of the incoming state: neither `cleanup` nor the warm-up
seeding touches `initialAmount` or `lastAmount`. -/
lemma getStats_sessionTotal (now : Nat) (s : RewardHistory) :
    (getStats now s).2.sessionTotal = toDisplay (sessionTotalWei s) := by
  show toDisplay (sessionTotalWei (seedHistory now (cleanup now s))) = _
  rw [sessionTotalWei_seedHistory, sessionTotalWei_cleanup]

lemma getStats_perMinute (now : Nat) (s : RewardHistory) :
    (getStats now s).2.currentRate.perMinute
      = toDisplay (windowTotalWei now (getStats now s).1 / minutesInWindow) := rfl

lemma getStats_perHour (now : Nat) (s : RewardHistory) :
    (getStats now s).2.currentRate.perHour
      = toDisplay (windowTotalWei now (getStats now s).1 / minutesInWindow * 60) := rfl

lemma getStats_perDay (now : Nat) (s : RewardHistory) :
    (getStats now s).2.currentRate.perDay
      = toDisplay (windowTotalWei now (getStats now s).1 / minutesInWindow * 60 * 24) := rfl

/-- Lemma: `getStats` reads its input state only through `seedHistory ∘ cleanup`. -/
lemma getStats_eq_of_cleanup_eq (now : Nat) {a b : RewardHistory}
    (h : cleanup now a = cleanup now b) : getStats now a = getStats now b := by
  unfold getStats; rw [h]

/-- Source `reset()` (lines 291-299) re-establishes exactly the freshly constructed
state with the reset time as `startTime`. -/
lemma reset_eq_initState (now : Nat) (s : RewardHistory) :
    reset now s = initState now := rfl

/-! ### The window filter -/

lemma mem_cleanupList {p : RewardPoint} {now : Nat} {l : List RewardPoint} :
    p ∈ cleanupList now l ↔ p ∈ l ∧ now - windowMs ≤ p.timestamp := by
  simp [cleanupList, inWindowB, List.mem_filter]

lemma cleanupList_idem (now : Nat) (l : List RewardPoint) :
    cleanupList now (cleanupList now l) = cleanupList now l := by
  unfold cleanupList
  rw [List.filter_filter]
  simp

lemma cleanupList_append (now : Nat) (l₁ l₂ : List RewardPoint) :
    cleanupList now (l₁ ++ l₂) = cleanupList now l₁ ++ cleanupList now l₂ :=
  List.filter_append _ _

lemma cleanupList_eq_self (now : Nat) (l : List RewardPoint)
    (h : ∀ p ∈ l, now - windowMs ≤ p.timestamp) : cleanupList now l = l := by
  unfold cleanupList
  rw [List.filter_eq_self]
  intro p hp
  simp [inWindowB, h p hp]

lemma cleanup_eq_self (now : Nat) (s : RewardHistory)
    (h : cleanupList now s.history = s.history) : cleanup now s = s := by
  unfold cleanup
  rw [h]

/-! ### `setLastTimestamp` -/

lemma setLastTimestamp_eq_dropLast_append (now : Nat) :
    ∀ (l : List RewardPoint) (h : l ≠ []),
      setLastTimestamp now l
        = l.dropLast ++ [⟨now, (l.getLast h).amount⟩]
  | [], h => absurd rfl h
  | [p], _ => rfl
  | p :: q :: ps, _ => by
      rw [show setLastTimestamp now (p :: q :: ps)
            = p :: setLastTimestamp now (q :: ps) from rfl,
        setLastTimestamp_eq_dropLast_append now (q :: ps) (by simp)]
      simp [List.getLast]

lemma setLastTimestamp_map_amount (now : Nat) :
    ∀ l : List RewardPoint,
      (setLastTimestamp now l).map RewardPoint.amount = l.map RewardPoint.amount
  | [] => rfl
  | [_] => rfl
  | p :: q :: ps => by
      rw [show setLastTimestamp now (p :: q :: ps)
            = p :: setLastTimestamp now (q :: ps) from rfl]
      simp [setLastTimestamp_map_amount now (q :: ps)]

lemma setLastTimestamp_length (now : Nat) (l : List RewardPoint) :
    (setLastTimestamp now l).length = l.length := by
  have := congrArg List.length (setLastTimestamp_map_amount now l)
  simpa using this

/-! ### The warm-up samples -/

lemma syntheticSamples_eq (now : Nat) :
    syntheticSamples now
      = [⟨now - 240000, sampleWei⟩, ⟨now - 180000, sampleWei⟩,
         ⟨now - 120000, sampleWei⟩, ⟨now - 60000, sampleWei⟩,
         ⟨now, sampleWei⟩] := by
  simp [syntheticSamples, List.range_succ]

lemma syntheticSamples_inWindow (now : Nat) :
    ∀ p ∈ syntheticSamples now, now - windowMs ≤ p.timestamp := by
  rw [syntheticSamples_eq]
  intro p hp
  simp only [List.mem_cons, List.not_mem_nil, or_false] at hp
  rcases hp with h | h | h | h | h <;> subst h <;> dsimp only <;> simp only [windowMs] <;> omega

lemma cleanupList_syntheticSamples (now : Nat) :
    cleanupList now (syntheticSamples now) = syntheticSamples now :=
  cleanupList_eq_self now _ (syntheticSamples_inWindow now)

/-- Lemma: `getStats` reads its input only through `seedHistory ∘ cleanup`, so two
states with the same pruned-and-seeded form give the same result. -/
lemma getStats_eq_of_seed_eq (now : Nat) {a b : RewardHistory}
    (h : seedHistory now (cleanup now a) = seedHistory now (cleanup now b)) :
    getStats now a = getStats now b := by
  unfold getStats; rw [h]

/-- The state returned by `getStats` is already pruned: running `cleanup`
on it again removes nothing. -/
lemma cleanup_seedHistory_cleanup (now : Nat) (s : RewardHistory) :
    cleanup now (seedHistory now (cleanup now s)) = seedHistory now (cleanup now s) := by
  apply cleanup_eq_self
  by_cases h : s.initialized = true
  · rw [seedHistory_of_initialized _ _ (by simpa using h)]
    exact cleanupList_idem now s.history
  · rw [seedHistory_history_of_uninit _ _ (by simpa using h)]
    rw [cleanup_history, cleanupList_append, cleanupList_idem,
      cleanupList_syntheticSamples]

/-! ### The claims -/

/-- C2: for every accumulator state, `getStats` computes
`currentRate.perMinute` as the sum of the delta amounts retained in the
window history divided by the fixed window length of 5 minutes (never by
the actual span of the retained samples), `perHour = perMinute × 60` and
`perDay = perHour × 24`. -/
theorem c2_window_rate_fixed_divisor (now : Nat) (s : RewardHistory) :
    minutesInWindow = 5 ∧
    (getStats now s).2.currentRate.perMinute
      = toDisplay (windowTotalWei now (getStats now s).1 / minutesInWindow) ∧
    (getStats now s).2.currentRate.perHour
      = (getStats now s).2.currentRate.perMinute * 60 ∧
    (getStats now s).2.currentRate.perDay
      = (getStats now s).2.currentRate.perHour * 24 := by
  refine ⟨rfl, getStats_perMinute now s, ?_, ?_⟩
  · rw [getStats_perHour, getStats_perMinute]
    unfold toDisplay
    push_cast
    ring
  · rw [getStats_perDay, getStats_perHour]
    unfold toDisplay
    push_cast
    ring

/-- C8: `getStats().sessionPerMinute` is the display conversion of the
exact wei-integer quotient `sessionTotal × 60000 / (now − startTime)` when
the session duration is positive, and of 0 otherwise. -/
theorem c8_session_rate_formula (now : Nat) (s : RewardHistory) :
    (getStats now s).2.sessionPerMinute
      = toDisplay (if 0 < now - s.startTime
          then sessionTotalWei s * 60000 / (now - s.startTime) else 0) := by
  show toDisplay
      (if 0 < now - (seedHistory now (cleanup now s)).startTime
       then sessionTotalWei (seedHistory now (cleanup now s)) * 60000
              / (now - (seedHistory now (cleanup now s)).startTime)
       else 0) = _
  rw [seedHistory_startTime, cleanup_startTime, sessionTotalWei_seedHistory,
    sessionTotalWei_cleanup]

/-- C9: `getStats().sessionDurationMinutes` always equals
`max(1, (now − startTime) in minutes)`; in particular it equals 1 in a
`getStats` issued at the very time of the first `update` on a fresh
accumulator. -/
theorem c9_duration_floor (s : RewardHistory) (now tInit t c : Nat) :
    (getStats now s).2.sessionDurationMinutes
        = max 1 (((now - s.startTime : ℕ) : ℚ) / 60000) ∧
    (getStats t (update t c (initState tInit))).2.sessionDurationMinutes = 1 := by
  have key : ∀ (n : Nat) (x : RewardHistory),
      (getStats n x).2.sessionDurationMinutes
        = max 1 (((n - x.startTime : ℕ) : ℚ) / 60000) := by
    intro n x
    show max 1 (((n - (seedHistory n (cleanup n x)).startTime : ℕ) : ℚ) / 60000) = _
    rw [seedHistory_startTime, cleanup_startTime]
  refine ⟨key now s, ?_⟩
  rw [key]
  have hst : (update t c (initState tInit)).startTime = t := rfl
  rw [hst]
  simp

/-- C10: two consecutive `getStats` calls with no intervening operation
(the second fed the state the first returned, at the same clock reading)
return identical numeric fields. -/
theorem c10_idempotent_reads (now : Nat) (s : RewardHistory) :
    (getStats now ((getStats now s).1)).2 = (getStats now s).2 := by
  have h : getStats now ((getStats now s).1) = getStats now s := by
    apply getStats_eq_of_seed_eq
    rw [getStats_fst, cleanup_seedHistory_cleanup]
    exact seedHistory_of_initialized _ _ (seedHistory_initialized _ _)
  rw [h]

/-- C3: a decreasing observation (`update(a)` then `update(b)` with
`b < a`) hits the rollback branch: afterwards the history is exactly one
zero-delta point at the second call's time, baseline and last amount both
equal `b`, the session clock restarts at the second call's time, and
`getStats().sessionTotal` is 0. -/
theorem c3_rollback_resets_session (s : RewardHistory) (t1 t2 now a b : Nat)
    (h : b < a) :
    (update t2 b (update t1 a s)).history = [⟨t2, 0⟩] ∧
    (update t2 b (update t1 a s)).initialAmount = some b ∧
    (update t2 b (update t1 a s)).lastAmount = b ∧
    (update t2 b (update t1 a s)).startTime = t2 ∧
    (getStats now (update t2 b (update t1 a s))).2.sessionTotal = 0 := by
  set u := update t1 a s with hu
  have hl : u.lastAmount = a := update_lastAmount t1 a s
  have hi : u.initialized = true := update_initialized t1 a s
  have hbranch : update t2 b u
      = { u with history := [⟨t2, 0⟩], lastAmount := b,
                 initialAmount := some b, startTime := t2 } := by
    unfold update
    rw [hi, hl]
    simp [h]
  refine ⟨by rw [hbranch], by rw [hbranch], by rw [hbranch], by rw [hbranch], ?_⟩
  rw [getStats_sessionTotal, hbranch]
  unfold sessionTotalWei toDisplay
  simp

/-- C3 witness: the spec's instance `update(100)` then `update(50)`. -/
theorem c3_rollback_witness :
    (update 2 50 (update 1 100 (initState 0))).history = [⟨2, 0⟩] ∧
    (update 2 50 (update 1 100 (initState 0))).initialAmount = some 50 ∧
    (update 2 50 (update 1 100 (initState 0))).lastAmount = 50 ∧
    (update 2 50 (update 1 100 (initState 0))).startTime = 2 ∧
    (getStats 10 (update 2 50 (update 1 100 (initState 0)))).2.sessionTotal = 0 :=
  c3_rollback_resets_session (initState 0) 1 2 10 100 50 (by decide)

/-- C4: the first `update(c)` on an uninitialized accumulator sets
`initialAmount = lastAmount = c` and `startTime = now`, appends one
zero-delta point, and performs no other state change (in particular no
pruning: the result is exactly the record written below). -/
theorem c4_first_update_initializes (s : RewardHistory) (t c : Nat)
    (h : s.initialized = false) :
    update t c s
      = { s with initialAmount := some c, lastAmount := c, startTime := t,
                 initialized := true, history := s.history ++ [⟨t, 0⟩] } ∧
    (s.history = [] → (update t c s).history = [⟨t, 0⟩]) := by
  have hb : update t c s
      = { s with initialAmount := some c, lastAmount := c, startTime := t,
                 initialized := true, history := s.history ++ [⟨t, 0⟩] } := by
    unfold update
    simp [h]
  exact ⟨hb, fun he => by rw [hb]; simp [he]⟩

/-- C4 witness: first call on a fresh accumulator. -/
theorem c4_first_update_witness :
    (initState 7).initialized = false ∧
    update 9 42 (initState 7)
      = { history := [⟨9, 0⟩], lastAmount := 42, initialAmount := some 42,
          startTime := 9, initialized := true } := by
  refine ⟨rfl, ?_⟩
  rw [(c4_first_update_initializes (initState 7) 9 42 rfl).1]
  rfl

/-- C7: a zero-delta `update` (same cumulative value again) on an
initialized accumulator with non-empty history only retimes the most
recent point to `now` (plus the usual pruning): the delta amounts and the
length of the history list are unchanged, as are `lastAmount`,
`initialAmount` and `startTime`; with an empty history it appends a single
zero-delta point instead. -/
theorem c7_zero_delta_retimes (s : RewardHistory) (now c : Nat)
    (hinit : s.initialized = true) (hlast : s.lastAmount = c) :
    (∀ h : s.history ≠ [],
        (update now c s).history = cleanupList now (setLastTimestamp now s.history) ∧
        setLastTimestamp now s.history
          = s.history.dropLast ++ [⟨now, (s.history.getLast h).amount⟩] ∧
        (setLastTimestamp now s.history).map RewardPoint.amount
          = s.history.map RewardPoint.amount ∧
        (setLastTimestamp now s.history).length = s.history.length) ∧
    (s.history = [] → (update now c s).history = [⟨now, 0⟩]) ∧
    (update now c s).lastAmount = s.lastAmount ∧
    (update now c s).initialAmount = s.initialAmount ∧
    (update now c s).startTime = s.startTime := by
  have hle : s.lastAmount ≤ c := le_of_eq hlast
  have hnotlt : ¬ c < s.lastAmount := by omega
  have hzero : ¬ 0 < c - s.lastAmount := by omega
  refine ⟨?_, ?_, by rw [update_lastAmount, hlast],
    update_initialAmount_of_mono now c s hinit hle,
    update_startTime_of_mono now c s hinit hle⟩
  · intro h
    have hb : update now c s
        = cleanup now { s with history := setLastTimestamp now s.history } := by
      unfold update
      simp [hinit, hnotlt, hzero, h]
    exact ⟨by rw [hb]; rfl,
      setLastTimestamp_eq_dropLast_append now s.history h,
      setLastTimestamp_map_amount now s.history,
      setLastTimestamp_length now s.history⟩
  · intro he
    have hb : update now c s
        = cleanup now { s with history := s.history ++ [⟨now, c - s.lastAmount⟩] } := by
      unfold update
      simp [hinit, hnotlt, hzero, he]
    have hz : c - s.lastAmount = 0 := by omega
    rw [hb, cleanup_history, he, hz, List.nil_append]
    exact cleanupList_eq_self now _
      (by intro p hp; simp at hp; subst hp; simp)

lemma sessionTotalWei_some {s : RewardHistory} {a : Nat}
    (h : s.initialAmount = some a) : sessionTotalWei s = s.lastAmount - a := by
  simp [sessionTotalWei, h]

lemma sessionTotalWei_none {s : RewardHistory} (h : s.initialAmount = none) :
    sessionTotalWei s = 0 := by
  simp [sessionTotalWei, h]

/-- Folding a non-decreasing run of observations through `update` on an
initialized state never rebaselines: `initialAmount` and `startTime` are
preserved, `lastAmount` ends at the last observed value, and the state
stays initialized. -/
lemma applyUpdates_mono (obs : List (Nat × Nat)) :
    ∀ s : RewardHistory, s.initialized = true →
      List.Chain (fun x y => x ≤ y) s.lastAmount (obs.map Prod.snd) →
      (applyUpdates obs s).initialAmount = s.initialAmount ∧
      (applyUpdates obs s).lastAmount = (obs.map Prod.snd).getLastD s.lastAmount ∧
      (applyUpdates obs s).startTime = s.startTime ∧
      (applyUpdates obs s).initialized = true := by
  induction obs with
  | nil => exact fun s h _ => ⟨rfl, rfl, rfl, h⟩
  | cons p rest ih =>
    intro s h hc
    rw [List.map_cons, List.chain_cons] at hc
    obtain ⟨hle, hc'⟩ := hc
    have h2 := update_lastAmount p.1 p.2 s
    have hrec := ih (update p.1 p.2 s) (update_initialized p.1 p.2 s)
      (by rw [h2]; exact hc')
    rw [show applyUpdates (p :: rest) s = applyUpdates rest (update p.1 p.2 s)
      from rfl]
    refine ⟨?_, ?_, ?_, hrec.2.2.2⟩
    · rw [hrec.1, update_initialAmount_of_mono p.1 p.2 s h hle]
    · rw [hrec.2.1, h2, List.map_cons, List.getLastD_cons]
    · rw [hrec.2.2.1, update_startTime_of_mono p.1 p.2 s h hle]

/-- C1: on a fresh (or reset) accumulator, a first `update(c0)` followed by
any non-decreasing run of observations, at arbitrary times, makes the next
`getStats()` report `sessionTotal = cn − c0` (clamped at 0 by `Nat`
subtraction) in display units, where `cn` is the last observed value. -/
theorem c1_monotonic_accumulation (tInit t0 c0 now : Nat)
    (rest : List (Nat × Nat))
    (hmono : List.Chain (fun x y => x ≤ y) c0 (rest.map Prod.snd)) :
    (getStats now (applyUpdates rest (update t0 c0 (initState tInit)))).2.sessionTotal
      = toDisplay ((rest.map Prod.snd).getLastD c0 - c0) := by
  have hi : (update t0 c0 (initState tInit)).initialized = true := rfl
  have hl : (update t0 c0 (initState tInit)).lastAmount = c0 := rfl
  have hIA : (update t0 c0 (initState tInit)).initialAmount = some c0 := rfl
  have hrec := applyUpdates_mono rest (update t0 c0 (initState tInit)) hi
    (by rw [hl]; exact hmono)
  rw [getStats_sessionTotal, sessionTotalWei_some (hrec.1.trans hIA),
    hrec.2.1, hl]

/-- C1 witness: `update(5)` then observations 7, 7, 12 give a session total
of 7 wei (in display units), regardless of the call times used. -/
theorem c1_monotonic_witness :
    (getStats 10 (applyUpdates [(1, 7), (2, 7), (3, 12)]
        (update 0 5 (initState 0)))).2.sessionTotal = toDisplay 7 := by
  have h := c1_monotonic_accumulation 0 0 5 10 [(1, 7), (2, 7), (3, 12)]
    (List.Chain.cons (by omega) (List.Chain.cons (by omega)
      (List.Chain.cons (by omega) List.Chain.nil)))
  rw [h]
  rfl

/-- C5: calling `getStats` first on an uninitialized accumulator seeds the
five synthetic warm-up samples and marks the state initialized WITHOUT
setting `initialAmount`; any later `update(c)` is treated as a non-first
call against `lastAmount = 0` (a positive `c` is appended as a window
delta), the baseline stays `none` through every non-decreasing run of
updates, and `getStats().sessionTotal` stays 0. -/
theorem c5_getStats_seeds_without_baseline (tInit now0 now : Nat)
    (obs : List (Nat × Nat))
    (hmono : List.Chain (fun x y => x ≤ y) 0 (obs.map Prod.snd)) :
    ((getStats now0 (initState tInit)).1.initialized = true ∧
      (getStats now0 (initState tInit)).1.initialAmount = none ∧
      (getStats now0 (initState tInit)).1.lastAmount = 0 ∧
      (getStats now0 (initState tInit)).1.history = syntheticSamples now0) ∧
    (∀ t c : Nat, 0 < c →
        (update t c ((getStats now0 (initState tInit)).1)).history
          = cleanupList t
              ((getStats now0 (initState tInit)).1.history ++ [⟨t, c⟩])) ∧
    (applyUpdates obs ((getStats now0 (initState tInit)).1)).initialAmount
        = none ∧
    (getStats now (applyUpdates obs
        ((getStats now0 (initState tInit)).1))).2.sessionTotal = 0 := by
  have h1 : (getStats now0 (initState tInit)).1.initialized = true := rfl
  have h2 : (getStats now0 (initState tInit)).1.initialAmount = none := rfl
  have h3 : (getStats now0 (initState tInit)).1.lastAmount = 0 := rfl
  have h4 : (getStats now0 (initState tInit)).1.history = syntheticSamples now0 := rfl
  have hrec := applyUpdates_mono obs ((getStats now0 (initState tInit)).1) h1
    (by rw [h3]; exact hmono)
  refine ⟨⟨h1, h2, h3, h4⟩, ?_, hrec.1.trans h2, ?_⟩
  · intro t c hc
    unfold update
    rw [h1, h3]
    simp [hc]
  · rw [getStats_sessionTotal, sessionTotalWei_none (hrec.1.trans h2)]
    unfold toDisplay
    simp

/-- C5 witness: a premature `getStats`, then observations 3 and 10, still
report a zero session total. -/
theorem c5_no_baseline_witness :
    (applyUpdates [(400001, 3), (400002, 10)]
        ((getStats 400000 (initState 0)).1)).initialAmount = none ∧
    (getStats 400003 (applyUpdates [(400001, 3), (400002, 10)]
        ((getStats 400000 (initState 0)).1))).2.sessionTotal = 0 := by
  have h := c5_getStats_seeds_without_baseline 0 400000 400003
    [(400001, 3), (400002, 10)]
    (List.Chain.cons (by omega) (List.Chain.cons (by omega) List.Chain.nil))
  exact ⟨h.2.2.1, h.2.2.2⟩

/-- C7 witness: the spec's instance `update(100)` then `update(100)`. -/
theorem c7_zero_delta_witness :
    (update 3 100 (update 2 100 (initState 0))).history = [⟨3, 0⟩] ∧
    (update 3 100 (update 2 100 (initState 0))).lastAmount = 100 := by
  have h := c7_zero_delta_retimes (update 2 100 (initState 0)) 3 100
    (by decide) (by decide)
  refine ⟨?_, ?_⟩
  · rw [(h.1 (by decide)).1]
    decide
  · rw [h.2.2.1]
    decide

lemma cleanupList_facts (now : Nat) (l : List RewardPoint)
    (hs : sortedByTime l) (hl : timesLE now l) :
    sortedByTime (cleanupList now l) ∧ timesLE now (cleanupList now l) ∧
      ∀ p ∈ cleanupList now l, now - windowMs ≤ p.timestamp :=
  ⟨hs.filter _, fun p hp => hl p (mem_cleanupList.mp hp).1,
   fun _ hp => (mem_cleanupList.mp hp).2⟩

/-- Appending a point observed at `now` to a sorted history of
earlier-or-equal observations keeps it sorted and bounded by `now`. -/
lemma sorted_le_push (now a : Nat) (l : List RewardPoint)
    (hs : sortedByTime l) (hl : timesLE now l) :
    sortedByTime (l ++ [⟨now, a⟩]) ∧ timesLE now (l ++ [⟨now, a⟩]) := by
  refine ⟨?_, ?_⟩
  · unfold sortedByTime at hs ⊢
    rw [List.pairwise_append]
    refine ⟨hs, List.pairwise_singleton _ _, ?_⟩
    intro p hp q hq
    simp only [List.mem_singleton] at hq
    subst hq
    exact hl p hp
  · intro p hp
    rcases List.mem_append.mp hp with h | h
    · exact hl p h
    · simp only [List.mem_singleton] at h
      subst h
      exact le_refl now

lemma sortedByTime_syntheticSamples (now : Nat) :
    sortedByTime (syntheticSamples now) := by
  rw [syntheticSamples_eq]
  unfold sortedByTime
  simp [List.pairwise_cons]
  omega

lemma timesLE_syntheticSamples (now : Nat) :
    timesLE now (syntheticSamples now) := by
  intro p hp
  rw [syntheticSamples_eq] at hp
  simp only [List.mem_cons, List.not_mem_nil, or_false] at hp
  rcases hp with h | h | h | h | h <;> subst h <;> dsimp only <;> omega

/-- C6: starting from a well-formed state observed no later than `now`,
after an `update` or a `getStats` at `now` the retained history is sorted
by `observedAt` ascending and every retained point satisfies
`observedAt ≥ now − windowMs` (well-formedness is preserved); moreover
`getStats` returns exactly the same thing when the stale points are
removed beforehand — they contribute nothing to the window total or to any
other output. -/
theorem c6_pruning_and_sorting (s : RewardHistory) (t now c : Nat)
    (hwf : WF t s) (ht : t ≤ now) :
    (WF now (update now c s) ∧
      ∀ p ∈ (update now c s).history, now - windowMs ≤ p.timestamp) ∧
    (WF now ((getStats now s).1) ∧
      ∀ p ∈ (getStats now s).1.history, now - windowMs ≤ p.timestamp) ∧
    getStats now s = getStats now { s with history := cleanupList now s.history } := by
  obtain ⟨hsort, hle0, hempty⟩ := hwf
  have hleN : timesLE now s.history := fun p hp => le_trans (hle0 p hp) ht
  refine ⟨?_, ?_, ?_⟩
  · unfold update
    split_ifs with h1 h2 h3 h4
    · -- first-call branch, reached only while uninitialized: history is empty
      rw [hempty h1]
      simp only [List.nil_append]
      refine ⟨⟨List.pairwise_singleton _ _, ?_, fun hf => by simp at hf⟩, ?_⟩
      · intro p hp
        simp only [List.mem_singleton] at hp
        subst hp
        exact le_refl now
      · intro p hp
        simp only [List.mem_singleton] at hp
        subst hp
        exact Nat.sub_le _ _
    · -- rollback branch: the history becomes a single point at `now`
      refine ⟨⟨List.pairwise_singleton _ _, ?_, fun hcontra => absurd hcontra h1⟩, ?_⟩
      · intro p hp
        simp only [List.mem_singleton] at hp
        subst hp
        exact le_refl now
      · intro p hp
        simp only [List.mem_singleton] at hp
        subst hp
        exact Nat.sub_le _ _
    · -- positive delta: push then prune
      have hp := sorted_le_push now (c - s.lastAmount) s.history hsort hleN
      have hf := cleanupList_facts now _ hp.1 hp.2
      exact ⟨⟨hf.1, hf.2.1, fun hcontra => absurd hcontra h1⟩, hf.2.2⟩
    · -- zero delta on empty history: push the zero point then prune
      have hp := sorted_le_push now (c - s.lastAmount) s.history hsort hleN
      have hf := cleanupList_facts now _ hp.1 hp.2
      exact ⟨⟨hf.1, hf.2.1, fun hcontra => absurd hcontra h1⟩, hf.2.2⟩
    · -- zero delta: retime the last point then prune
      rw [setLastTimestamp_eq_dropLast_append now s.history h4]
      have hsd : sortedByTime s.history.dropLast :=
        hsort.sublist (List.dropLast_sublist _)
      have hld : timesLE now s.history.dropLast :=
        fun p hp => hleN p ((List.dropLast_sublist _).subset hp)
      have hp := sorted_le_push now ((s.history.getLast h4).amount) _ hsd hld
      have hf := cleanupList_facts now _ hp.1 hp.2
      exact ⟨⟨hf.1, hf.2.1, fun hcontra => absurd hcontra h1⟩, hf.2.2⟩
  · by_cases hinit : s.initialized = true
    · have hseed : (getStats now s).1 = cleanup now s := by
        rw [getStats_fst]
        exact seedHistory_of_initialized _ _ (by rw [cleanup_initialized]; exact hinit)
      have hf := cleanupList_facts now s.history hsort hleN
      rw [hseed]
      exact ⟨⟨hf.1, hf.2.1, fun hcontra => by simp [hinit] at hcontra⟩, hf.2.2⟩
    · have hfalse : s.initialized = false := by simpa using hinit
      have hseed : (getStats now s).1.history = syntheticSamples now := by
        rw [getStats_fst,
          seedHistory_history_of_uninit _ _ (by rw [cleanup_initialized]; exact hfalse),
          cleanup_history, hempty hfalse]
        rfl
      refine ⟨⟨?_, ?_, ?_⟩, ?_⟩
      · rw [hseed]
        exact sortedByTime_syntheticSamples now
      · rw [hseed]
        exact timesLE_syntheticSamples now
      · intro hcontra
        rw [getStats_fst, seedHistory_initialized] at hcontra
        cases hcontra
      · intro p hp
        rw [hseed] at hp
        exact syntheticSamples_inWindow now p hp
  · apply getStats_eq_of_seed_eq
    have hcc : cleanup now { s with history := cleanupList now s.history }
        = cleanup now s := by
      unfold cleanup
      dsimp only
      rw [cleanupList_idem]
    rw [hcc]

/-- C6 witness: a state holding one stale point (`timestamp 1`) and one
fresh point, updated and read at `now = 400000`. -/
theorem c6_pruning_witness :
    (WF 400000 (update 400000 20
        ⟨[⟨1, 5⟩, ⟨350000, 7⟩], 12, some 3, 1, true⟩) ∧
      ∀ p ∈ (update 400000 20
          (⟨[⟨1, 5⟩, ⟨350000, 7⟩], 12, some 3, 1, true⟩ : RewardHistory)).history,
        400000 - windowMs ≤ p.timestamp) ∧
    getStats 400000 (⟨[⟨1, 5⟩, ⟨350000, 7⟩], 12, some 3, 1, true⟩ : RewardHistory)
      = getStats 400000
          { (⟨[⟨1, 5⟩, ⟨350000, 7⟩], 12, some 3, 1, true⟩ : RewardHistory) with
            history := cleanupList 400000 [⟨1, 5⟩, ⟨350000, 7⟩] } := by
  have h := c6_pruning_and_sorting ⟨[⟨1, 5⟩, ⟨350000, 7⟩], 12, some 3, 1, true⟩
    350000 400000 20 (by decide) (by decide)
  exact ⟨h.1, h.2.2⟩

end MystBalance
